import Mathlib

/-!
Verification of the LegendKeeper-to-Foundry converter (convert.py).

The Python source operates on JSON-like dynamic values.  We embed those
values as the inductive type `JValue` below and translate each function of
the source into a Lean function over `JValue` (or over small record types
mirroring the dictionary shapes the source reads).  Operations that can
raise in Python (attribute access on a non-dict, iterating a non-iterable,
joining non-strings, membership tests with unhashable keys, `str + non-str`)
are modelled in the `Except PyErr` monad.  Recursive tree walks carry a
`Nat` fuel argument standing for CPython's recursion-depth limit; running
out of fuel corresponds to `RecursionError` and never happens at
sufficient fuel, which every theorem below supplies.
-/

namespace Tennisfel

/-- A JSON-like dynamic value, as manipulated by convert.py. -/
inductive JValue where
  | null : JValue
  | bool (b : Bool) : JValue
  | num (n : Int) : JValue
  | str (s : String) : JValue
  | arr (elems : List JValue) : JValue
  | obj (fields : List (String × JValue)) : JValue
  deriving Repr

/-- Errors a Python expression in the translated code can raise. -/
inductive PyErr where
  | typeError : PyErr
  | attrError : PyErr
  | recursionLimit : PyErr
  deriving DecidableEq, Repr

/-- First-match association lookup: Python dict indexing/get on our
dict model (keys of a real Python dict are unique, so first match is
exact dict semantics). -/
def jLookup : List (String × JValue) → String → Option JValue
  | [], _ => none
  | (k, v) :: rest, key => if k == key then some v else jLookup rest key

/-- Python truthiness of a value. -/
def pyTruthy : JValue → Bool
  | .null => false
  | .bool b => b
  | .num n => n != 0
  | .str s => s != ""
  | .arr xs => !xs.isEmpty
  | .obj kvs => !kvs.isEmpty

/-- Python repr() of a value.  Container reprs are modelled up to
quoting; string-escape sequences inside reprs are not modelled (no
theorem below depends on a container repr). -/
def pyRepr : JValue → String
  | .null => "None"
  | .bool true => "True"
  | .bool false => "False"
  | .num n => toString n
  | .str s => "\x27" ++ s ++ "\x27"
  | .arr xs => "[" ++ String.intercalate ", " (xs.attach.map fun x => pyRepr x.1) ++ "]"
  | .obj kvs =>
      "\x7b" ++
        String.intercalate ", "
          (kvs.attach.map fun kv => "\x27" ++ kv.1.1 ++ "\x27: " ++ pyRepr kv.1.2) ++
      "\x7d"
decreasing_by
  all_goals simp_wf
  · have h1 := List.sizeOf_lt_of_mem x.2
    simp at h1 ⊢
    omega
  · have h1 := List.sizeOf_lt_of_mem kv.2
    have h2 : sizeOf kv.1.2 < sizeOf kv.1 := by
      rcases kv.1 with ⟨a, b⟩
      simp
    simp at h1 ⊢
    omega

/-- Python str() of a value, as used by f-string interpolation. -/
def pyStr : JValue → String
  | .null => "None"
  | .bool true => "True"
  | .bool false => "False"
  | .num n => toString n
  | .str s => s
  | .arr xs => pyRepr (.arr xs)
  | .obj kvs => pyRepr (.obj kvs)

/-- Python str.startswith. -/
def strStartsWith (s pre : String) : Bool := pre.data.isPrefixOf s.data

/-- Whether the needle occurs as a contiguous sublist of the haystack. -/
def listInfixOf (needle : List Char) : List Char → Bool
  | [] => needle.isEmpty
  | c :: rest => needle.isPrefixOf (c :: rest) || listInfixOf needle rest

/-- Python substring containment test (sub in s). -/
def strContains (s sub : String) : Bool := listInfixOf sub.data s.data

/-- Python equality test of a dynamic value against a string literal:
true exactly for that string, false for every other value. -/
def tagEq (v : JValue) (s : String) : Bool :=
  match v with
  | .str t => t == s
  | _ => false

/-- Python attrs.get(key, default): raises AttributeError unless the
receiver is a dict. -/
def pyGet (v : JValue) (k : String) (d : JValue) : Except PyErr JValue :=
  match v with
  | .obj kvs => .ok ((jLookup kvs k).getD d)
  | _ => .error .attrError

/-- Models the pair of statements on an image src:
if src in image_map: src = image_map[src].  Membership tests with an
unhashable key (list/dict) raise TypeError; a hashable non-string key is
never equal to the string keys of the table. -/
def imLookup (im : List (String × String)) (k : JValue) : Except PyErr JValue :=
  match k with
  | .arr _ => .error .typeError
  | .obj _ => .error .typeError
  | .str s =>
      .ok (match im.find? (fun kv => kv.1 == s) with
           | some kv => .str kv.2
           | none => .str s)
  | v => .ok v

/-- One resolved entry of the Identifier Resolution Table:
the dict literal built in main, with keys id and type. -/
structure RidEntry where
  id : String
  type : String
  deriving DecidableEq, Repr

/-- Models resource_id in resource_id_map followed (when present) by
resource_id_map[resource_id]; unhashable keys raise TypeError. -/
def ridResolve (rm : List (String × RidEntry)) (k : JValue) :
    Except PyErr (Option RidEntry) :=
  match k with
  | .arr _ => .error .typeError
  | .obj _ => .error .typeError
  | .str s => .ok ((rm.find? (fun kv => kv.1 == s)).map (fun kv => kv.2))
  | _ => .ok none

/-- Python str.join over already-evaluated items: concatenates string
items, raises TypeError at a non-string item. -/
def joinStrs : List JValue → Except PyErr String
  | [] => .ok ""
  | .str s :: rest => (joinStrs rest).map (fun t => s ++ t)
  | _ :: _ => .error .typeError

/-- One iteration of the marks loop of the text branch: wraps the
accumulated value in the tag of a known mark type.  A non-dict mark
raises AttributeError at mark.get. -/
def wrapMark (t : JValue) (mark : JValue) : Except PyErr JValue :=
  match mark with
  | .obj kvs =>
      let mt := (jLookup kvs "type").getD (.str "")
      if tagEq mt "strong" then .ok (.str ("<strong>" ++ pyStr t ++ "</strong>"))
      else if tagEq mt "em" then .ok (.str ("<em>" ++ pyStr t ++ "</em>"))
      else if tagEq mt "code" then .ok (.str ("<code>" ++ pyStr t ++ "</code>"))
      else if tagEq mt "underline" then .ok (.str ("<u>" ++ pyStr t ++ "</u>"))
      else if tagEq mt "strike" then .ok (.str ("<s>" ++ pyStr t ++ "</s>"))
      else .ok t
  | _ => .error .attrError

/-- The marks loop (for mark in marks).  Iterating a list visits its
items; iterating a string visits its characters and a dict its keys,
both of which are strings and hence raise AttributeError at mark.get
unless the iteration is empty; other values are not iterable. -/
def applyMarks (t : JValue) (marks : JValue) : Except PyErr JValue :=
  match marks with
  | .arr ms => ms.foldlM wrapMark t
  | .str s => if s.data.isEmpty then .ok t else .error .attrError
  | .obj kvs => if kvs.isEmpty then .ok t else .error .attrError
  | _ => .error .typeError

/-- Evaluates process_node over each child in order, collecting the raw
results (CPython str.join materialises the whole generator before type
checking, so all recursive calls run first). -/
def renderParts (pn : JValue → Except PyErr JValue) (xs : List JValue) :
    Except PyErr (List JValue) :=
  xs.foldr (fun x acc => do
    let v ← pn x
    let rest ← acc
    pure (v :: rest)) (.ok [])

/-- Models ''.join(process_node(child) for child in node_content).
Iterating a string yields characters and iterating a dict yields keys;
both are strings, so each such child renders to the empty string.
Non-iterable values raise TypeError. -/
def renderChildren (pn : JValue → Except PyErr JValue) :
    JValue → Except PyErr String
  | .arr xs => do
      let parts ← renderParts pn xs
      joinStrs parts
  | .str _ => .ok ""
  | .obj _ => .ok ""
  | _ => .error .typeError

/-- The recursive worker process_node of convert_prosemirror_to_html.
Returns the raw Python value the source returns: usually a string, but
the text / mention / inlineExtension branches can return a non-string
attribute value unchanged, exactly as the source does. -/
def processNode (im : List (String × String)) (rm : List (String × RidEntry)) :
    Nat → JValue → Except PyErr JValue
  | 0 => fun _ => .error .recursionLimit
  | fuel+1 => fun node =>
    match node with
    | .obj kvs =>
      let nodeType := (jLookup kvs "type").getD (.str "")
      let nodeContent := (jLookup kvs "content").getD (.arr [])
      let attrs := (jLookup kvs "attrs").getD (.obj [])
      let marks := (jLookup kvs "marks").getD (.arr [])
      if tagEq nodeType "doc" then
        (renderChildren (processNode im rm fuel) nodeContent).map .str
      else if tagEq nodeType "heading" then do
        let level ← pyGet attrs "level" (.num 2)
        let inner ← renderChildren (processNode im rm fuel) nodeContent
        pure (.str ("<h" ++ pyStr level ++ ">" ++ inner ++ "</h" ++ pyStr level ++ ">"))
      else if tagEq nodeType "paragraph" then do
        let inner ← renderChildren (processNode im rm fuel) nodeContent
        pure (.str (if inner != "" then "<p>" ++ inner ++ "</p>" else "<p></p>"))
      else if tagEq nodeType "text" then do
        let t := (jLookup kvs "text").getD (.str "")
        applyMarks t marks
      else if tagEq nodeType "bulletList" then do
        let inner ← renderChildren (processNode im rm fuel) nodeContent
        pure (.str ("<ul>" ++ inner ++ "</ul>"))
      else if tagEq nodeType "orderedList" then do
        let inner ← renderChildren (processNode im rm fuel) nodeContent
        pure (.str ("<ol>" ++ inner ++ "</ol>"))
      else if tagEq nodeType "listItem" then do
        let inner ← renderChildren (processNode im rm fuel) nodeContent
        pure (.str ("<li>" ++ inner ++ "</li>"))
      else if tagEq nodeType "image" then do
        let src ← pyGet attrs "src" (.str "")
        let alt ← pyGet attrs "alt" (.str "")
        let src ← imLookup im src
        pure (.str ("<img src=\"" ++ pyStr src ++ "\" alt=\"" ++ pyStr alt ++ "\" />"))
      else if tagEq nodeType "rule" then
        pure (.str "<hr />")
      else if tagEq nodeType "codeBlock" then do
        let inner ← renderChildren (processNode im rm fuel) nodeContent
        pure (.str ("<pre><code>" ++ inner ++ "</code></pre>"))
      else if tagEq nodeType "blockquote" then do
        let inner ← renderChildren (processNode im rm fuel) nodeContent
        pure (.str ("<blockquote>" ++ inner ++ "</blockquote>"))
      else if tagEq nodeType "bodiedExtension" then do
        let _extKey ← pyGet attrs "extensionKey" (.str "")
        let params ← pyGet attrs "parameters" (.obj [])
        let extTitle ← pyGet params "extensionTitle" (.str "Secret")
        let inner ← renderChildren (processNode im rm fuel) nodeContent
        pure (.str ("<div class=\"secret\"><strong>" ++ pyStr extTitle ++
          ":</strong> " ++ inner ++ "</div>"))
      else if tagEq nodeType "panel" then do
        let panelType ← pyGet attrs "panelType" (.str "info")
        let inner ← renderChildren (processNode im rm fuel) nodeContent
        pure (.str ("<div class=\"panel panel-" ++ pyStr panelType ++ "\">" ++
          inner ++ "</div>"))
      else if tagEq nodeType "layoutSection" then do
        let inner ← renderChildren (processNode im rm fuel) nodeContent
        pure (.str ("<div class=\"layout-section\">" ++ inner ++ "</div>"))
      else if tagEq nodeType "layoutColumn" then do
        let width ← pyGet attrs "width" (.num 50)
        let inner ← renderChildren (processNode im rm fuel) nodeContent
        pure (.str ("<div class=\"layout-column\" style=\"width:" ++ pyStr width ++
          "%\">" ++ inner ++ "</div>"))
      else if tagEq nodeType "mention" then do
        let mentionText ← pyGet attrs "text" (.str "")
        let resourceId ← pyGet attrs "id" (.str "")
        let entry ← ridResolve rm resourceId
        match entry with
        | some e =>
            pure (.str ("@UUID[" ++ e.type ++ "." ++ e.id ++ "]\x7b" ++
              pyStr mentionText ++ "\x7d"))
        | none => pure mentionText
      else if tagEq nodeType "inlineExtension" then do
        let t ← pyGet attrs "text" (.str "")
        let params ← pyGet attrs "parameters" (.obj [])
        let icon ← pyGet params "icon" (.str "")
        pure (if pyTruthy icon then
                .str ("<i class=\"" ++ pyStr icon ++ "\"></i> " ++ pyStr t)
              else t)
      else
        (renderChildren (processNode im rm fuel) nodeContent).map .str
    | _ => .ok (.str "")

/-- The public entry point convert_prosemirror_to_html: a falsy or
non-dict argument returns the empty string before any recursion. -/
def convert_prosemirror_to_html (im : List (String × String))
    (rm : List (String × RidEntry)) (fuel : Nat) (content : JValue) :
    Except PyErr JValue :=
  if !pyTruthy content || !(match content with | .obj _ => true | _ => false) then
    .ok (.str "")
  else
    processNode im rm fuel content

/-- Python string concatenation a + b with a a str: TypeError unless b
is also a str. -/
def pyAddStr (a : String) (b : JValue) : Except PyErr String :=
  match b with
  | .str s => .ok (a ++ s)
  | _ => .error .typeError

/-- The character pool of generate_id: string.ascii_letters + string.digits. -/
def alphanumChars : List Char :=
  "abcdefghijklmnopqrstuvwxyzABCDEFGHIJKLMNOPQRSTUVWXYZ0123456789".data

/-- generate_id: sixteen successive random.choice draws over the 62
alphanumeric characters.  One run's stream of draws is abstracted as
choice : Nat → Fin 62; the call whose first draw is draw number start
consumes draws start..start+15. -/
def generate_id (choice : Nat → Fin 62) (start : Nat) : String :=
  String.mk ((List.range 16).map fun j => alphanumChars.getD (choice (start + j)).val "a".front)

/-- One typed property of a resource; dataUrl is prop.get(data, {}).get(url, ''). -/
structure Property where
  type : String
  dataUrl : String
  deriving Repr

/-- One document of a resource.  mapId is doc.get(map, {}).get(mapId, '');
content is the rich-text tree of a page document. -/
structure Document where
  type : String
  name : Option String
  content : JValue
  mapId : String
  deriving Repr

/-- One LegendKeeper resource, with the fields convert.py reads. -/
structure Resource where
  id : String
  name : Option String
  documents : List Document
  properties : List Property
  tags : List String
  bannerUrl : String
  deriving Repr

/-- classify_resource: scan documents for the first map-kind document;
if its mapId is a non-empty http URL the resource is a Scene, else if
some IMAGE property carries a non-empty http URL it is a Scene, else
the scan breaks and the resource is a JournalEntry.  find? returns the
first match, exactly like the for loop with its break. -/
def classify_resource (r : Resource) : String :=
  match r.documents.find? (fun d => d.type == "map") with
  | some d =>
      if d.mapId != "" && strStartsWith d.mapId "http" then "Scene"
      else if r.properties.any
          (fun p => p.type == "IMAGE" && (p.dataUrl != "" && strStartsWith p.dataUrl "http")) then
        "Scene"
      else "JournalEntry"
  | none => "JournalEntry"

/-- Python dict assignment d[k] = v on the association-list model:
replaces the value in place if the key exists, appends otherwise. -/
def dictInsert (m : List (String × RidEntry)) (k : String) (v : RidEntry) :
    List (String × RidEntry) :=
  if m.any (fun kv => kv.1 == k) then
    m.map (fun kv => if kv.1 == k then (k, v) else kv)
  else m ++ [(k, v)]

/-- The first pass of main over resources, building resource_id_map:
the i-th resource (0-based) gets the fresh identifier of the i-th
generate_id call of the pass. -/
def buildRidMapAux (choice : Nat → Fin 62) :
    List Resource → Nat → List (String × RidEntry) → List (String × RidEntry)
  | [], _, acc => acc
  | r :: rest, i, acc =>
      buildRidMapAux choice rest (i + 1)
        (dictInsert acc r.id ⟨generate_id choice (16 * i), classify_resource r⟩)

/-- The Identifier Resolution Table built by main (step 5). -/
def build_resource_id_map (choice : Nat → Fin 62) (resources : List Resource) :
    List (String × RidEntry) :=
  buildRidMapAux choice resources 0 []

/-- One journal page record as built by create_journal_entry (the
constant title/format fields are omitted; content is the raw value the
transducer returned). -/
structure JournalPage where
  _id : String
  name : String
  content : JValue
  sort : Nat
  deriving Repr

/-- A Foundry JournalEntry record, with the fields the claims concern. -/
structure JournalEntryRec where
  _id : String
  name : String
  pages : List JournalPage
  legendkeeper_id : String
  tags : List String
  deriving Repr

/-- create_journal_entry: one page per page-kind document in order; a
single placeholder page when there are none; a banner image prepended
into the first page when the banner URL resolves in the asset table. -/
def create_journal_entry (choice : Nat → Fin 62) (im : List (String × String))
    (rm : List (String × RidEntry)) (fuel : Nat) (r : Resource) :
    Except PyErr JournalEntryRec := do
  let resourceId := generate_id choice 0
  let name := r.name.getD "Untitled"
  let pageDocs := r.documents.filter (fun d => d.type == "page")
  let pages ← pageDocs.enum.mapM (fun p => do
      let html ← convert_prosemirror_to_html im rm fuel p.2.content
      pure ({ _id := generate_id choice (16 * (p.1 + 1)),
              name := p.2.name.getD "Main",
              content := html, sort := p.1 } : JournalPage))
  let pages := if pages.isEmpty then
      [{ _id := generate_id choice (16 * (pageDocs.length + 1)), name := "Main",
         content := .str "<p>No content</p>", sort := 0 }]
    else pages
  let pages ←
    if r.bannerUrl != "" && (im.find? (fun kv => kv.1 == r.bannerUrl)).isSome then
      match pages with
      | [] => pure pages
      | p :: rest => do
          let bannerImg := "<img src=\"" ++
            (((im.find? (fun kv => kv.1 == r.bannerUrl)).map (fun kv => kv.2)).getD "") ++
            "\" alt=\"" ++ name ++ "\" />"
          let c ← pyAddStr bannerImg p.content
          pure (({ p with content := .str c } : JournalPage) :: rest)
    else pure pages
  pure { _id := resourceId, name := name, pages := pages,
         legendkeeper_id := r.id, tags := r.tags }

/-- A Foundry Actor record, with the fields the claims concern. -/
structure ActorRec where
  _id : String
  name : String
  img : String
  biography : String
  legendkeeper_id : String
  tags : List String
  deriving Repr

/-- A Foundry Item record, with the fields the claims concern. -/
structure ItemRec where
  _id : String
  name : String
  img : String
  description : String
  legendkeeper_id : String
  tags : List String
  deriving Repr

/-- The IMAGE-property scan of the actor/item builders: the loop breaks
at the first IMAGE property whose URL is non-empty and resolves in the
asset table; otherwise the default icon stands. -/
def firstResolvedImage (im : List (String × String)) (props : List Property)
    (dflt : String) : String :=
  match props.find? (fun p => p.type == "IMAGE" &&
      (p.dataUrl != "" && (im.find? (fun kv => kv.1 == p.dataUrl)).isSome)) with
  | some p => ((im.find? (fun kv => kv.1 == p.dataUrl)).map (fun kv => kv.2)).getD dflt
  | none => dflt

/-- create_actor_entry: note the source calls
convert_prosemirror_to_html(content, image_map) with no resource_id_map
argument, so the transducer runs with the empty identifier table. -/
def create_actor_entry (choice : Nat → Fin 62) (im : List (String × String))
    (fuel : Nat) (r : Resource) : Except PyErr ActorRec := do
  let actorId := generate_id choice 0
  let name := r.name.getD "Untitled"
  let imgUrl := firstResolvedImage im r.properties "icons/svg/mystery-man.svg"
  let biography ← r.documents.foldlM (fun acc d =>
      if d.type == "page" then do
        let html ← convert_prosemirror_to_html im [] fuel d.content
        pyAddStr acc html
      else pure acc) ""
  pure { _id := actorId, name := name, img := imgUrl, biography := biography,
         legendkeeper_id := r.id, tags := r.tags }

/-- create_item_entry: same shape as the actor builder, also calling
the transducer without a resource_id_map argument. -/
def create_item_entry (choice : Nat → Fin 62) (im : List (String × String))
    (fuel : Nat) (r : Resource) : Except PyErr ItemRec := do
  let itemId := generate_id choice 0
  let name := r.name.getD "Untitled"
  let imgUrl := firstResolvedImage im r.properties "icons/svg/item-bag.svg"
  let description ← r.documents.foldlM (fun acc d =>
      if d.type == "page" then do
        let html ← convert_prosemirror_to_html im [] fuel d.content
        pyAddStr acc html
      else pure acc) ""
  pure { _id := itemId, name := name, img := imgUrl, description := description,
         legendkeeper_id := r.id, tags := r.tags }

/-- The trusted asset host of convert.py. -/
def assetHost : String := "assets.legendkeeper.com"

/-- One key check of extract_urls: the looked-up value contributes
itself when it is a string containing the trusted host name. -/
def hitSet (o : Option JValue) : Finset String :=
  match o with
  | some (.str s) => if strContains s assetHost then {s} else ∅
  | _ => ∅

/-- The two key checks of extract_urls on a dict node: a string value
under key url or mapId containing the trusted host name. -/
def urlFieldHits (kvs : List (String × JValue)) : Finset String :=
  hitSet (jLookup kvs "url") ∪ hitSet (jLookup kvs "mapId")

/-- Union of a list of finsets. -/
def finsetUnionList (l : List (Finset String)) : Finset String :=
  l.foldr (fun a b => a ∪ b) ∅

/-- collect_image_urls: exhaustive recursive traversal accumulating a
set of URL strings; dict nodes contribute their url/mapId hits and are
recursed value-wise, lists element-wise, leaves not at all.  Fuel
bounds the recursion depth as in processNode. -/
def collect_image_urls : Nat → JValue → Finset String
  | 0 => fun _ => ∅
  | fuel+1 => fun v =>
    match v with
    | .obj kvs =>
        urlFieldHits kvs ∪
          finsetUnionList (kvs.map (fun kv => collect_image_urls fuel kv.2))
    | .arr xs => finsetUnionList (xs.map (collect_image_urls fuel))
    | _ => ∅

/-- Shape condition on one attrs entry under which every use the
transducer makes of it is exception-free and string-valued: parameters
must be a dict, a text attribute must be a string (it can be returned
verbatim), and other attributes must be hashable scalars. -/
def goodAttrEntry (kv : String × JValue) : Bool :=
  if kv.1 == "parameters" then (match kv.2 with | .obj _ => true | _ => false)
  else if kv.1 == "text" then (match kv.2 with | .str _ => true | _ => false)
  else (match kv.2 with | .arr _ => false | .obj _ => false | _ => true)

/-- Whether a value is a dict node. -/
def isObjVal : JValue → Bool
  | .obj _ => true
  | _ => false

/-- Whether a value is a container (list or dict), i.e. unhashable in
Python and hence unusable as a dict-membership key. -/
def isContainerVal : JValue → Bool
  | .arr _ => true
  | .obj _ => true
  | _ => false

/-- Well-shaped rich-text trees up to a depth bound: every dict node's
content field (if present) is a list of well-shaped nodes, its attrs
field (if present) is a dict of goodAttrEntry entries, its marks field
(if present) is a list of dicts, and its text field (if present) is a
string.  Unknown node types, missing fields and arbitrary leaves are
all allowed. -/
def wellFormed : Nat → JValue → Bool
  | 0 => fun _ => false
  | fuel+1 => fun v =>
    match v with
    | .obj kvs =>
        (match jLookup kvs "content" with
         | none => true
         | some (.arr xs) => xs.all (wellFormed fuel)
         | some _ => false) &&
        (match jLookup kvs "attrs" with
         | none => true
         | some (.obj akvs) => akvs.all goodAttrEntry
         | some _ => false) &&
        (match jLookup kvs "marks" with
         | none => true
         | some (.arr ms) => ms.all isObjVal
         | some _ => false) &&
        (match jLookup kvs "text" with
         | none => true
         | some (.str _) => true
         | some _ => false)
    | _ => true

/-- Spec-side predicate: the resource has some map-kind document whose
mapId is a non-empty URL-shaped image identifier (any document, not
just the first map-kind one). -/
def specHasMapDocWithImage (r : Resource) : Bool :=
  r.documents.any (fun d => d.type == "map" && (d.mapId != "" && strStartsWith d.mapId "http"))

/-- Spec-side predicate: some IMAGE-typed property carries a non-empty
URL-shaped value. -/
def specHasImagePropUrl (r : Resource) : Bool :=
  r.properties.any (fun p => p.type == "IMAGE" && (p.dataUrl != "" && strStartsWith p.dataUrl "http"))

/-- A resource with two map-kind documents where only the second one
carries the map image. -/
def laterMapResource : Resource :=
  { id := "r2", name := some "Region", properties := [], tags := [], bannerUrl := "",
    documents := [⟨"map", none, .null, ""⟩,
                  ⟨"map", none, .null, "https://assets.legendkeeper.com/m.webp"⟩] }

/-- A bodiedExtension node with a single text child and no attrs, so
the title falls back to Secret. -/
def secretNode : JValue :=
  .obj [("type", .str "bodiedExtension"),
        ("content", .arr [.obj [("type", .str "text"), ("text", .str "z")]])]

/-- A text node whose marks list contains a non-dict entry. -/
def badMarksNode : JValue :=
  .obj [("type", .str "text"), ("text", .str "a"), ("marks", .arr [.num 5])]

/-- A URL on an unrelated host that merely mentions the trusted asset
host in its query string. -/
def evilUrl : String := "https://evil.example/x?assets.legendkeeper.com"

/-- An input graph whose only url key points at the unrelated host. -/
def evilData : JValue := .obj [("url", .str evilUrl)]

/-- Spec-side characterization of the Asset Locator output (the amended
claim): the string sits under a key literally named url or mapId of
some dict node reachable within the depth bound, and it contains the
trusted host name as a substring. -/
def specUnderAssetKey : Nat → JValue → String → Bool
  | 0 => fun _ _ => false
  | fuel+1 => fun v s =>
    match v with
    | .obj kvs =>
        ((match jLookup kvs "url" with
          | some (.str u) => u == s && strContains u assetHost
          | _ => false) ||
         (match jLookup kvs "mapId" with
          | some (.str u) => u == s && strContains u assetHost
          | _ => false)) ||
        kvs.any (fun kv => specUnderAssetKey fuel kv.2 s)
    | .arr xs => xs.any (fun x => specUnderAssetKey fuel x s)
    | _ => false

/-- A page document whose rich-text tree is a doc node holding exactly
one mention of the resource rid with display text t. -/
def mentionPage (t rid : String) : JValue :=
  .obj [("type", .str "doc"),
        ("content", .arr [.obj [("type", .str "mention"),
          ("attrs", .obj [("text", .str t), ("id", .str rid)])]])]

/-- A resource holding a single page document containing one mention. -/
def mentionResource (t rid : String) : Resource :=
  { id := "src", name := some "N",
    documents := [⟨"page", some "Main", mentionPage t rid, ""⟩],
    properties := [], tags := [], bannerUrl := "" }

/-- An identifier table holding the target the mention points at. -/
def rmTable : List (String × RidEntry) :=
  [("target", ⟨"ZZZZZZZZZZZZZZZZ", "JournalEntry"⟩)]

/-- Two resources with distinct source identifiers and no content. -/
def ridResources : List Resource :=
  [{ id := "a", name := none, documents := [], properties := [], tags := [], bannerUrl := "" },
   { id := "b", name := none, documents := [], properties := [], tags := [], bannerUrl := "" }]

/-- A random stream whose first sixteen draws give one token and whose
next sixteen give a different token. -/
def twoTokenStream : Nat → Fin 62 := fun n => if n < 16 then 0 else 1

/-- Closed form of the Identifier Resolution Table when no source
identifier repeats: the i-th resource keyed by its source id, paired
with the i-th generated identifier and its classification. -/
def specRidTable (choice : Nat → Fin 62) (rs : List Resource) :
    List (String × RidEntry) :=
  rs.enum.map (fun p => (p.2.id, ⟨generate_id choice (16 * p.1), classify_resource p.2⟩))

/-- A resource without documents but with a banner that resolves in the
asset table below. -/
def bannerOnlyResource : Resource :=
  { id := "r3", name := some "X", documents := [], properties := [], tags := [],
    bannerUrl := "https://assets.legendkeeper.com/b.png" }

/-- Asset table resolving the banner of bannerOnlyResource. -/
def bannerIm : List (String × String) :=
  [("https://assets.legendkeeper.com/b.png", "modules/tennisfel/assets/banners/b.png")]

/-- A resource with no documents, no properties and no banner. -/
def emptyResource : Resource :=
  { id := "w", name := none, documents := [], properties := [], tags := [],
    bannerUrl := "" }

/-- The content of the placeholder page the journal builder produces
for a resource without page documents: the fixed placeholder text, with
the banner image prepended when the banner URL resolves. -/
def bannerPlaceholderContent (im : List (String × String)) (r : Resource) : JValue :=
  if r.bannerUrl != "" && (im.find? (fun kv => kv.1 == r.bannerUrl)).isSome then
    .str (("<img src=\"" ++
      (((im.find? (fun kv => kv.1 == r.bannerUrl)).map (fun kv => kv.2)).getD "") ++
      "\" alt=\"" ++ r.name.getD "Untitled" ++ "\" />") ++ "<p>No content</p>")
  else .str "<p>No content</p>"

/-- The transducer result is a successfully computed string. -/
def isOkStr (e : Except PyErr JValue) : Prop :=
  ∃ s, e = .ok (.str s)

mutual
/-- Trees equal up to recursively permuting the order of embedded
lists: atoms are fixed, array elements are related pointwise and then
reordered, dict entries keep their keys and order with related values. -/
inductive JPerm : JValue → JValue → Prop where
  | null : JPerm .null .null
  | bool (b : Bool) : JPerm (.bool b) (.bool b)
  | num (n : Int) : JPerm (.num n) (.num n)
  | str (s : String) : JPerm (.str s) (.str s)
  | arr {xs ys zs : List JValue} :
      JPermList xs ys → List.Perm ys zs → JPerm (.arr xs) (.arr zs)
  | obj {kvs lvs : List (String × JValue)} :
      JPermFields kvs lvs → JPerm (.obj kvs) (.obj lvs)

/-- Pointwise JPerm on lists. -/
inductive JPermList : List JValue → List JValue → Prop where
  | nil : JPermList [] []
  | cons {x y : JValue} {xs ys : List JValue} :
      JPerm x y → JPermList xs ys → JPermList (x :: xs) (y :: ys)

/-- Pointwise JPerm on dict entries, keys and entry order unchanged. -/
inductive JPermFields :
    List (String × JValue) → List (String × JValue) → Prop where
  | nil : JPermFields [] []
  | cons {k : String} {v w : JValue} {kvs lvs : List (String × JValue)} :
      JPerm v w → JPermFields kvs lvs → JPermFields ((k, v) :: kvs) ((k, w) :: lvs)
end

@[simp]
theorem exceptBind_ok {α β : Type} (a : α) (f : α → Except PyErr β) :
    (Except.ok a >>= f : Except PyErr β) = f a := rfl

@[simp]
theorem exceptBind_error {α β : Type} (e : PyErr) (f : α → Except PyErr β) :
    ((Except.error e : Except PyErr α) >>= f : Except PyErr β) = Except.error e := rfl

@[simp]
theorem exceptPure_eq {α : Type} (a : α) : (pure a : Except PyErr α) = Except.ok a := rfl

@[simp]
theorem exceptMap_ok {α β : Type} (f : α → β) (a : α) :
    (Except.ok a : Except PyErr α).map f = Except.ok (f a) := rfl

@[simp]
theorem exceptMap_error {α β : Type} (f : α → β) (e : PyErr) :
    (Except.error e : Except PyErr α).map f = Except.error e := rfl

/-- C10: for every top-level input that is not a dict node — None, a
list, a bare string, any other leaf — as well as for the empty dict,
the public entry point convert_prosemirror_to_html returns the empty
string rather than raising or returning null. -/
theorem C10_nondict_input_renders_empty (im : List (String × String))
    (rm : List (String × RidEntry)) (fuel : Nat) (v : JValue)
    (h : (∀ kvs, v ≠ JValue.obj kvs) ∨ v = JValue.obj []) :
    convert_prosemirror_to_html im rm fuel v = .ok (.str "") := by
  rcases h with h | h
  · cases v
    case obj kvs => exact absurd rfl (h kvs)
    all_goals simp [convert_prosemirror_to_html]
  · subst h
    rfl

/-- Witness for C10 at the concrete non-dict input [x]. -/
theorem C10_nondict_input_renders_empty_witness :
    ((∀ kvs, JValue.arr [JValue.str "x"] ≠ JValue.obj kvs) ∨
      JValue.arr [JValue.str "x"] = JValue.obj []) ∧
    convert_prosemirror_to_html [] [] 5 (JValue.arr [JValue.str "x"]) = .ok (.str "") :=
  ⟨Or.inl fun _ h => JValue.noConfusion h,
   C10_nondict_input_renders_empty [] [] 5 _ (Or.inl fun _ h => JValue.noConfusion h)⟩

/-- C1: a mention node whose target identifier is a key of the
Identifier Resolution Table renders to the structured cross-reference
token built from that entry's target kind and target identifier with
the display text as label, and a mention node whose target identifier
is absent from the table renders to exactly its display text. -/
theorem C1_mention_rendering (im : List (String × String))
    (rm : List (String × RidEntry)) (fuel : Nat)
    (nkvs akvs : List (String × JValue)) (t rid : String)
    (htype : jLookup nkvs "type" = some (.str "mention"))
    (hattrs : jLookup nkvs "attrs" = some (.obj akvs))
    (htext : jLookup akvs "text" = some (.str t))
    (hid : jLookup akvs "id" = some (.str rid)) :
    processNode im rm (fuel + 1) (.obj nkvs) =
      match rm.find? (fun kv => kv.1 == rid) with
      | some kv => .ok (.str ("@UUID[" ++ kv.2.type ++ "." ++ kv.2.id ++
          "]\x7b" ++ t ++ "\x7d"))
      | none => .ok (.str t) := by
  cases hfind : rm.find? (fun kv => kv.1 == rid) <;>
    simp [processNode, htype, hattrs, htext, hid, tagEq, pyGet, ridResolve, hfind, pyStr]

/-- Witness for C1 at a concrete mention whose target is in the table. -/
theorem C1_mention_rendering_witness :
    (jLookup [("type", JValue.str "mention"),
        ("attrs", JValue.obj [("text", JValue.str "Bob"), ("id", JValue.str "res1")])]
      "type" = some (JValue.str "mention")) ∧
    processNode [] [("res1", ⟨"FID0123456789abc", "JournalEntry"⟩)] 1
        (.obj [("type", .str "mention"),
               ("attrs", .obj [("text", .str "Bob"), ("id", .str "res1")])]) =
      .ok (.str "@UUID[JournalEntry.FID0123456789abc]\x7bBob\x7d") :=
  ⟨rfl, C1_mention_rendering [] _ 0 _ _ "Bob" "res1" rfl rfl rfl rfl⟩

/-- C5 counterexample: the source inserts a single space between the
closing strong tag and the rendered children, so the claimed output
with nothing in between is not produced. -/
theorem C5_counterexample :
    processNode [] [] 3 secretNode =
      .ok (.str "<div class=\"secret\"><strong>Secret:</strong> z</div>") ∧
    processNode [] [] 3 secretNode ≠
      .ok (.str "<div class=\"secret\"><strong>Secret:</strong>z</div>") := by
  constructor
  · rfl
  · intro h
    rw [show processNode [] [] 3 secretNode =
        .ok (.str "<div class=\"secret\"><strong>Secret:</strong> z</div>") from rfl] at h
    simp at h

/-- C5 amended: a bodiedExtension node renders to the secret div whose
strong tag holds the title (from the nested parameter attribute,
default Secret) followed by a colon, then one space, then the
concatenated rendered children. -/
theorem C5_bodied_extension_rendering (im : List (String × String))
    (rm : List (String × RidEntry)) (fuel : Nat)
    (nkvs akvs pkvs : List (String × JValue))
    (htype : jLookup nkvs "type" = some (.str "bodiedExtension"))
    (hattrs : (jLookup nkvs "attrs").getD (.obj []) = .obj akvs)
    (hparams : (jLookup akvs "parameters").getD (.obj []) = .obj pkvs) :
    processNode im rm (fuel + 1) (.obj nkvs) =
      (renderChildren (processNode im rm fuel)
          ((jLookup nkvs "content").getD (.arr []))).map
        (fun inner => .str ("<div class=\"secret\"><strong>" ++
          pyStr ((jLookup pkvs "extensionTitle").getD (.str "Secret")) ++
          ":</strong> " ++ inner ++ "</div>")) := by
  simp only [processNode, htype, hattrs, hparams, Option.getD_some]
  cases hrc : renderChildren (processNode im rm fuel)
      ((jLookup nkvs "content").getD (.arr [])) <;>
    simp [tagEq, pyGet, hparams, hrc]

/-- Witness for C5 amended at the concrete secret node. -/
theorem C5_bodied_extension_rendering_witness :
    (jLookup [("type", JValue.str "bodiedExtension"),
        ("content", JValue.arr [JValue.obj [("type", JValue.str "text"),
          ("text", JValue.str "z")]])] "type" = some (JValue.str "bodiedExtension")) ∧
    processNode [] [] 3
        (.obj [("type", .str "bodiedExtension"),
               ("content", .arr [.obj [("type", .str "text"), ("text", .str "z")]])]) =
      .ok (.str "<div class=\"secret\"><strong>Secret:</strong> z</div>") :=
  ⟨rfl, C5_bodied_extension_rendering [] [] 2 _ [] [] rfl rfl rfl⟩

/-- C2 counterexample: a resource whose second map-kind document
carries the URL-shaped image identifier satisfies the claim's first
condition yet classifies as JournalEntry, because the scan stops at the
first map-kind document. -/
theorem C2_counterexample :
    specHasMapDocWithImage laterMapResource = true ∧
    classify_resource laterMapResource = "JournalEntry" := ⟨rfl, rfl⟩

/-- C2 amended: a resource classifies Scene exactly when its first
map-kind document carries a non-empty URL-shaped image identifier, or
some IMAGE property carries a non-empty URL and a map-kind document
exists; later map-kind documents are never consulted. -/
theorem C2_classifier_first_map_doc (r : Resource) :
    classify_resource r = "Scene" ↔
      ∃ d, r.documents.find? (fun d => d.type == "map") = some d ∧
        ((d.mapId != "" && strStartsWith d.mapId "http") = true ∨
          specHasImagePropUrl r = true) := by
  unfold classify_resource specHasImagePropUrl
  cases hfind : r.documents.find? (fun d => d.type == "map") with
  | none => simp
  | some d =>
      dsimp only
      by_cases hA : (d.mapId != "" && strStartsWith d.mapId "http") = true
      · rw [if_pos hA]
        exact ⟨fun _ => ⟨d, rfl, Or.inl hA⟩, fun _ => rfl⟩
      · rw [if_neg hA]
        by_cases hB : (r.properties.any fun p =>
            p.type == "IMAGE" && (p.dataUrl != "" && strStartsWith p.dataUrl "http")) = true
        · rw [if_pos hB]
          exact ⟨fun _ => ⟨d, rfl, Or.inr hB⟩, fun _ => rfl⟩
        · rw [if_neg hB]
          constructor
          · intro h
            exact absurd h (by decide)
          · rintro ⟨d2, hd2, h⟩
            have hdd : d = d2 := by injection hd2
            subst hdd
            rcases h with h | h
            · exact absurd h hA
            · exact absurd h hB

/-- C8 counterexample: a resource with zero documents whose banner
resolves in the asset table gets the banner image prepended into the
placeholder page, so the single page's body is not exactly the fixed
placeholder text. -/
theorem C8_counterexample :
    (create_journal_entry (fun _ => 0) bannerIm [] 1 bannerOnlyResource).map
        (fun e => e.pages.map (fun p => p.content)) =
      .ok [.str ("<img src=\"modules/tennisfel/assets/banners/b.png\" alt=\"X\" />" ++
        "<p>No content</p>")] ∧
    (create_journal_entry (fun _ => 0) bannerIm [] 1 bannerOnlyResource).map
        (fun e => e.pages.map (fun p => p.content)) ≠
      .ok [.str "<p>No content</p>"] := by
  constructor
  · rfl
  · intro h
    rw [show (create_journal_entry (fun _ => 0) bannerIm [] 1 bannerOnlyResource).map
        (fun e => e.pages.map (fun p => p.content)) =
      .ok [.str ("<img src=\"modules/tennisfel/assets/banners/b.png\" alt=\"X\" />" ++
        "<p>No content</p>")] from rfl] at h
    simp at h

/-- C8 amended: for a resource with zero page-kind documents the
journal builder produces exactly one page (never an empty list) whose
body is the fixed placeholder text, with the banner image prepended
when the resource's banner URL resolves in the asset table. -/
theorem C8_no_page_docs_single_placeholder (choice : Nat → Fin 62)
    (im : List (String × String)) (rm : List (String × RidEntry)) (fuel : Nat)
    (r : Resource) (h : ∀ d ∈ r.documents, d.type ≠ "page") :
    create_journal_entry choice im rm fuel r = .ok
      { _id := generate_id choice 0,
        name := r.name.getD "Untitled",
        pages := [{ _id := generate_id choice 16, name := "Main",
                    content := bannerPlaceholderContent im r, sort := 0 }],
        legendkeeper_id := r.id, tags := r.tags } := by
  have hfilter : r.documents.filter (fun d => d.type == "page") = [] :=
    List.filter_eq_nil_iff.mpr (fun d hd => by simp [h d hd])
  unfold create_journal_entry bannerPlaceholderContent
  rw [hfilter]
  by_cases hb : (r.bannerUrl != "" &&
      (im.find? (fun kv => kv.1 == r.bannerUrl)).isSome) = true
  · simp [hb, pyAddStr, List.mapM, List.mapM.loop]
  · simp [hb, pyAddStr, List.mapM, List.mapM.loop]

/-- Witness for C8 amended at a concrete resource without documents. -/
theorem C8_no_page_docs_single_placeholder_witness :
    (∀ d ∈ emptyResource.documents, d.type ≠ "page") ∧
    create_journal_entry (fun _ => 0) [] [] 1 emptyResource =
      .ok { _id := "aaaaaaaaaaaaaaaa", name := "Untitled",
            pages := [{ _id := "aaaaaaaaaaaaaaaa", name := "Main",
                        content := .str "<p>No content</p>", sort := 0 }],
            legendkeeper_id := "w", tags := [] } :=
  ⟨fun d hd => absurd hd (List.not_mem_nil d),
   C8_no_page_docs_single_placeholder (fun _ => 0) [] [] 1 _
     (fun d hd => absurd hd (List.not_mem_nil d))⟩

/-- C4 counterexample: the mention's target sits in the Identifier
Resolution Table, yet the actor's biography and the item's description
hold the bare display text, because neither builder receives the
table. -/
theorem C4_counterexample :
    (rmTable.find? (fun kv => kv.1 == "target")).isSome = true ∧
    (create_actor_entry (fun _ => 0) [] 3 (mentionResource "Bob" "target")).map
        (fun a => a.biography) = .ok "Bob" ∧
    (create_item_entry (fun _ => 0) [] 3 (mentionResource "Bob" "target")).map
        (fun i => i.description) = .ok "Bob" := ⟨rfl, rfl, rfl⟩

/-- C4 amended: the Actor and Item builders receive only the Resource
and the Asset Reference Table; they call the transducer with an empty
Identifier Resolution Table, so a mention inside a page document always
renders to its plain display text in the biography/description,
whatever the global table holds. -/
theorem C4_builders_render_mentions_plain (choice : Nat → Fin 62)
    (im : List (String × String)) (fuel : Nat) (t rid : String) :
    (create_actor_entry choice im (fuel + 2) (mentionResource t rid)).map
        (fun a => a.biography) = .ok t ∧
    (create_item_entry choice im (fuel + 2) (mentionResource t rid)).map
        (fun i => i.description) = .ok t := by
  constructor <;>
    simp [create_actor_entry, create_item_entry, mentionResource, mentionPage,
      convert_prosemirror_to_html, processNode, renderChildren, renderParts,
      joinStrs, tagEq, pyGet, ridResolve, pyTruthy, pyStr, pyAddStr, jLookup,
      firstResolvedImage, List.foldlM, List.find?, String.empty_append,
      String.append_empty]

/-- C7 counterexample: with an unlucky random stream both resources
receive the same sixteen-character token, so two entries of the table
share one target identifier while their source identifiers differ. -/
theorem C7_counterexample :
    build_resource_id_map (fun _ => 0) ridResources =
      [("a", ⟨"aaaaaaaaaaaaaaaa", "JournalEntry"⟩),
       ("b", ⟨"aaaaaaaaaaaaaaaa", "JournalEntry"⟩)] ∧
    ("a" : String) ≠ "b" := ⟨rfl, by decide⟩

theorem dictInsert_of_fresh (m : List (String × RidEntry)) (k : String)
    (v : RidEntry) (h : ∀ kv ∈ m, kv.1 ≠ k) :
    dictInsert m k v = m ++ [(k, v)] := by
  have hany : m.any (fun kv => kv.1 == k) = false := by
    rw [List.any_eq_false]
    intro kv hm
    simp [h kv hm]
  unfold dictInsert
  rw [hany]
  simp

theorem buildRidMapAux_eq_append (choice : Nat → Fin 62) (rs : List Resource) :
    ∀ (i : Nat) (acc : List (String × RidEntry)),
      (∀ kv ∈ acc, ∀ r ∈ rs, kv.1 ≠ r.id) →
      (rs.map (fun r => r.id)).Nodup →
      buildRidMapAux choice rs i acc =
        acc ++ (rs.enumFrom i).map
          (fun p => (p.2.id, ⟨generate_id choice (16 * p.1), classify_resource p.2⟩)) := by
  induction rs with
  | nil => intro i acc _ _; simp [buildRidMapAux]
  | cons r rest ih =>
      intro i acc hdisj hnodup
      have hn : (∀ x ∈ rest, ¬x.id = r.id) ∧ (rest.map (fun r => r.id)).Nodup := by
        simpa using hnodup
      rw [show buildRidMapAux choice (r :: rest) i acc =
          buildRidMapAux choice rest (i + 1)
            (dictInsert acc r.id ⟨generate_id choice (16 * i), classify_resource r⟩)
        from rfl]
      rw [dictInsert_of_fresh _ _ _
        (fun kv hkv => hdisj kv hkv r (List.mem_cons_self r rest))]
      rw [ih (i + 1) _ ?hdisj2 hn.2]
      · rw [List.enumFrom_cons]
        simp
      case hdisj2 =>
        intro kv hkv r2 hr2
        rcases List.mem_append.mp hkv with hkv | hkv
        · exact hdisj kv hkv r2 (List.mem_cons_of_mem _ hr2)
        · have hkv1 : kv.1 = r.id := by
            rcases List.mem_singleton.mp hkv with rfl
            rfl
          rw [hkv1]
          intro heq
          exact hn.1 r2 hr2 heq.symm

/-- C7 amended: when the source identifiers are pairwise distinct and
the generated tokens of one run do not collide, the identifier
resolution pass yields exactly one entry per input resource, keyed by
its source identifier in order, pairing the fresh i-th generated
identifier with the Classifier's verdict, and the target identifiers
are pairwise distinct.  Neither hypothesis is enforced by the source:
duplicate source ids overwrite entries and the random generator has no
collision check (see the counterexample). -/
theorem C7_rid_table_shape (choice : Nat → Fin 62) (rs : List Resource)
    (hids : (rs.map (fun r => r.id)).Nodup)
    (hgen : ∀ i j, i < rs.length → j < rs.length →
      generate_id choice (16 * i) = generate_id choice (16 * j) → i = j) :
    build_resource_id_map choice rs = specRidTable choice rs ∧
    (build_resource_id_map choice rs).map (fun kv => kv.1) =
      rs.map (fun r => r.id) ∧
    ((build_resource_id_map choice rs).map (fun kv => kv.2.id)).Nodup := by
  have hmain : build_resource_id_map choice rs = specRidTable choice rs := by
    unfold build_resource_id_map specRidTable
    rw [buildRidMapAux_eq_append choice rs 0 [] (by simp) hids]
    simp [List.enum]
  refine ⟨hmain, ?_, ?_⟩
  · rw [hmain]
    unfold specRidTable
    rw [List.map_map]
    have hc : ((fun kv : String × RidEntry => kv.1) ∘
        (fun p : Nat × Resource =>
          ((p.2.id : String), (⟨generate_id choice (16 * p.1), classify_resource p.2⟩ : RidEntry)))) =
        (fun r : Resource => r.id) ∘ Prod.snd := rfl
    rw [hc, ← List.map_map, List.enum, List.enumFrom_map_snd]
  · rw [hmain]
    unfold specRidTable
    rw [List.map_map]
    have hc : ((fun kv : String × RidEntry => kv.2.id) ∘
        (fun p : Nat × Resource =>
          ((p.2.id : String), (⟨generate_id choice (16 * p.1), classify_resource p.2⟩ : RidEntry)))) =
        (fun i : Nat => generate_id choice (16 * i)) ∘ Prod.fst := rfl
    rw [hc, ← List.map_map, List.enum, List.enumFrom_map_fst]
    apply List.Nodup.map_on
    · intro x hx y hy hxy
      rw [List.mem_range'] at hx hy
      obtain ⟨ix, hix, rfl⟩ := hx
      obtain ⟨iy, hiy, rfl⟩ := hy
      simp only [Nat.zero_add, Nat.one_mul] at hxy ⊢
      exact hgen ix iy hix hiy hxy
    · exact List.nodup_range' 0 rs.length

/-- Witness for C7 amended at two concrete resources and a stream
giving two distinct tokens. -/
theorem C7_rid_table_shape_witness :
    (ridResources.map (fun r => r.id)).Nodup ∧
    (build_resource_id_map twoTokenStream ridResources =
        specRidTable twoTokenStream ridResources ∧
      (build_resource_id_map twoTokenStream ridResources).map (fun kv => kv.1) =
        ridResources.map (fun r => r.id) ∧
      ((build_resource_id_map twoTokenStream ridResources).map
        (fun kv => kv.2.id)).Nodup) :=
  ⟨by decide,
   C7_rid_table_shape twoTokenStream ridResources (by decide)
     (by
       intro i j hi hj he
       have hi2 : i < 2 := by simpa [ridResources] using hi
       have hj2 : j < 2 := by simpa [ridResources] using hj
       interval_cases i <;> interval_cases j <;>
         first
         | rfl
         | exact absurd he (by decide))⟩

theorem mem_finsetUnionList {s : String} {l : List (Finset String)} :
    s ∈ finsetUnionList l ↔ ∃ t ∈ l, s ∈ t := by
  induction l with
  | nil => simp [finsetUnionList]
  | cons a l ih =>
      simp only [finsetUnionList, List.foldr_cons] at ih ⊢
      simp [Finset.mem_union, ih]

theorem mem_hitSet (o : Option JValue) (s : String) :
    s ∈ hitSet o ↔
      (match o with
       | some (.str u) => u == s && strContains u assetHost
       | _ => false) = true := by
  cases o with
  | none => simp [hitSet]
  | some v =>
      cases v <;> simp [hitSet]
      case str u =>
        by_cases hc : strContains u assetHost = true
        · simp [hc, eq_comm]
        · simp [hc]

/-- C3 counterexample: a value under a url key on an unrelated host
that merely mentions the trusted host in its query string is collected,
although it does not begin with the trusted host prefix. -/
theorem C3_counterexample :
    evilUrl ∈ collect_image_urls 2 evilData ∧
    strStartsWith evilUrl "assets.legendkeeper.com" = false ∧
    strStartsWith evilUrl "https://assets.legendkeeper.com" = false := by
  exact ⟨by decide, by decide, by decide⟩

/-- C3 amended: a string belongs to the Asset Locator's output exactly
when it appears under a key literally named url or mapId of some dict
node and CONTAINS the trusted host name as a substring (not
necessarily as a prefix); the traversal is exhaustive. -/
theorem C3_collect_characterization (fuel : Nat) (v : JValue) (s : String) :
    s ∈ collect_image_urls fuel v ↔ specUnderAssetKey fuel v s = true := by
  induction fuel generalizing v with
  | zero => simp [collect_image_urls, specUnderAssetKey]
  | succ fuel ih =>
      cases v
      case obj kvs =>
        simp only [collect_image_urls, specUnderAssetKey, urlFieldHits]
        rw [Finset.mem_union, Finset.mem_union, mem_finsetUnionList,
          mem_hitSet, mem_hitSet]
        simp only [List.mem_map, Bool.or_eq_true, List.any_eq_true]
        constructor
        · rintro ((h | h) | ⟨t, ⟨kv, hkv, rfl⟩, hs⟩)
          · exact Or.inl (Or.inl h)
          · exact Or.inl (Or.inr h)
          · exact Or.inr ⟨kv, hkv, (ih kv.2).mp hs⟩
        · rintro ((h | h) | ⟨kv, hkv, hs⟩)
          · exact Or.inl (Or.inl h)
          · exact Or.inl (Or.inr h)
          · exact Or.inr ⟨collect_image_urls fuel kv.2, ⟨kv, hkv, rfl⟩, (ih kv.2).mpr hs⟩
      case arr xs =>
        simp only [collect_image_urls, specUnderAssetKey]
        rw [mem_finsetUnionList]
        simp only [List.mem_map, List.any_eq_true]
        constructor
        · rintro ⟨t, ⟨x, hx, rfl⟩, hs⟩
          exact ⟨x, hx, (ih x).mp hs⟩
        · rintro ⟨x, hx, hs⟩
          exact ⟨collect_image_urls fuel x, ⟨x, hx, rfl⟩, (ih x).mpr hs⟩
      all_goals simp [collect_image_urls, specUnderAssetKey]

theorem finsetUnionList_perm {l1 l2 : List (Finset String)} (h : l1.Perm l2) :
    finsetUnionList l1 = finsetUnionList l2 := by
  induction h with
  | nil => rfl
  | cons a _ ih =>
      simp only [finsetUnionList, List.foldr_cons] at ih ⊢
      rw [ih]
  | swap a b l =>
      simp only [finsetUnionList, List.foldr_cons]
      rw [Finset.union_left_comm]
  | trans _ _ ih1 ih2 => exact ih1.trans ih2

theorem hitSet_jperm {v w : JValue} (h : JPerm v w) :
    hitSet (some v) = hitSet (some w) := by
  cases h <;> rfl

theorem jPermFields_lookup {kvs lvs : List (String × JValue)}
    (h : JPermFields kvs lvs) (k : String) :
    (jLookup kvs k = none ∧ jLookup lvs k = none) ∨
    (∃ v w, jLookup kvs k = some v ∧ jLookup lvs k = some w ∧ JPerm v w) := by
  induction kvs generalizing lvs with
  | nil =>
      cases h
      exact Or.inl ⟨rfl, rfl⟩
  | cons kv kvs2 ih =>
      cases h with
      | cons hvw hrest =>
          rename_i k2 v w lvs2
          by_cases hk : (k2 == k) = true
          · exact Or.inr ⟨v, w, by simp [jLookup, hk], by simp [jLookup, hk], hvw⟩
          · simpa [jLookup, hk] using ih hrest

theorem jPermList_map_collect (fuel : Nat)
    (hfuel : ∀ v w, JPerm v w →
      collect_image_urls fuel v = collect_image_urls fuel w) :
    ∀ {xs ys : List JValue}, JPermList xs ys →
      xs.map (collect_image_urls fuel) = ys.map (collect_image_urls fuel) := by
  intro xs
  induction xs with
  | nil => intro ys h; cases h; rfl
  | cons x xs2 ih =>
      intro ys h
      cases h with
      | cons hxy hrest => simp [hfuel _ _ hxy, ih hrest]

theorem jPermFields_map_collect (fuel : Nat)
    (hfuel : ∀ v w, JPerm v w →
      collect_image_urls fuel v = collect_image_urls fuel w) :
    ∀ {kvs lvs : List (String × JValue)}, JPermFields kvs lvs →
      kvs.map (fun kv => collect_image_urls fuel kv.2) =
      lvs.map (fun kv => collect_image_urls fuel kv.2) := by
  intro kvs
  induction kvs with
  | nil => intro lvs h; cases h; rfl
  | cons kv kvs2 ih =>
      intro lvs h
      cases h with
      | cons hvw hrest => simp [hfuel _ _ hvw, ih hrest]

/-- C9: the Asset Locator's output set is invariant under recursively
permuting the orders of the lists nested inside the input graph: it
depends only on the graph's contents, not on any list order. -/
theorem C9_collect_order_independent (fuel : Nat) :
    ∀ v w, JPerm v w → collect_image_urls fuel v = collect_image_urls fuel w := by
  induction fuel with
  | zero => intro v w _; rfl
  | succ fuel ih =>
      intro v w h
      cases h with
      | null => rfl
      | bool b => rfl
      | num n => rfl
      | str s => rfl
      | arr hlist hperm =>
          simp only [collect_image_urls]
          rw [jPermList_map_collect fuel ih hlist]
          exact finsetUnionList_perm (hperm.map _)
      | obj hfields =>
          simp only [collect_image_urls, urlFieldHits]
          have hurl := jPermFields_lookup hfields "url"
          have hmap := jPermFields_lookup hfields "mapId"
          rw [jPermFields_map_collect fuel ih hfields]
          rcases hurl with ⟨ha, hb⟩ | ⟨v1, w1, ha, hb, hvw⟩
          · rcases hmap with ⟨hc, hd⟩ | ⟨v2, w2, hc, hd, hvw2⟩
            · rw [ha, hb, hc, hd]
            · rw [ha, hb, hc, hd, hitSet_jperm hvw2]
          · rcases hmap with ⟨hc, hd⟩ | ⟨v2, w2, hc, hd, hvw2⟩
            · rw [ha, hb, hc, hd, hitSet_jperm hvw]
            · rw [ha, hb, hc, hd, hitSet_jperm hvw, hitSet_jperm hvw2]

/-- Witness for C9 at a concrete two-element list and its swap. -/
theorem C9_collect_order_independent_witness :
    JPerm (.arr [.str "a", .obj [("url", .str "https://assets.legendkeeper.com/x.png")]])
      (.arr [.obj [("url", .str "https://assets.legendkeeper.com/x.png")], .str "a"]) ∧
    collect_image_urls 3
        (.arr [.str "a", .obj [("url", .str "https://assets.legendkeeper.com/x.png")]]) =
      collect_image_urls 3
        (.arr [.obj [("url", .str "https://assets.legendkeeper.com/x.png")], .str "a"]) :=
  ⟨JPerm.arr
     (JPermList.cons (JPerm.str "a")
       (JPermList.cons
         (JPerm.obj (JPermFields.cons
           (JPerm.str "https://assets.legendkeeper.com/x.png") JPermFields.nil))
         JPermList.nil))
     (List.Perm.swap _ _ []),
   C9_collect_order_independent 3 _ _
     (JPerm.arr
       (JPermList.cons (JPerm.str "a")
         (JPermList.cons
           (JPerm.obj (JPermFields.cons
             (JPerm.str "https://assets.legendkeeper.com/x.png") JPermFields.nil))
           JPermList.nil))
       (List.Perm.swap _ _ []))⟩

/-- C6 counterexample: a text node whose marks list holds a non-dict
entry makes the transducer raise AttributeError (mark.get on an int),
so render is not total over malformed sub-structures. -/
theorem C6_counterexample :
    convert_prosemirror_to_html [] [] 2 badMarksNode = .error .attrError := rfl

theorem joinStrs_ok {parts : List JValue}
    (h : ∀ p ∈ parts, ∃ s, p = JValue.str s) : ∃ s, joinStrs parts = .ok s := by
  induction parts with
  | nil => exact ⟨"", rfl⟩
  | cons p rest ih =>
      obtain ⟨s, rfl⟩ := h p (List.mem_cons_self p rest)
      obtain ⟨t, ht⟩ := ih (fun q hq => h q (List.mem_cons_of_mem _ hq))
      exact ⟨s ++ t, by simp [joinStrs, ht]⟩

theorem renderParts_ok {pn : JValue → Except PyErr JValue} {xs : List JValue}
    (h : ∀ x ∈ xs, ∃ s, pn x = .ok (JValue.str s)) :
    ∃ parts, renderParts pn xs = .ok parts ∧ ∀ p ∈ parts, ∃ s, p = JValue.str s := by
  induction xs with
  | nil => exact ⟨[], rfl, by simp⟩
  | cons x rest ih =>
      obtain ⟨s, hs⟩ := h x (List.mem_cons_self x rest)
      obtain ⟨parts, hp, hall⟩ := ih (fun y hy => h y (List.mem_cons_of_mem _ hy))
      refine ⟨JValue.str s :: parts, ?_, ?_⟩
      · simp only [renderParts, List.foldr_cons, exceptPure_eq] at hp ⊢
        simp [hs, hp]
      · intro p hp2
        rcases List.mem_cons.mp hp2 with rfl | hp3
        · exact ⟨s, rfl⟩
        · exact hall p hp3

theorem renderChildren_arr_ok {pn : JValue → Except PyErr JValue} {xs : List JValue}
    (h : ∀ x ∈ xs, ∃ s, pn x = .ok (JValue.str s)) :
    ∃ s, renderChildren pn (.arr xs) = .ok s := by
  obtain ⟨parts, hp, hall⟩ := renderParts_ok h
  obtain ⟨s, hs⟩ := joinStrs_ok hall
  exact ⟨s, by simp [renderChildren, hp, hs]⟩

theorem wrapMark_str_ok (s : String) (mark : JValue) (hm : isObjVal mark = true) :
    ∃ u, wrapMark (.str s) mark = .ok (.str u) := by
  cases mark
  case obj kvs =>
    simp only [wrapMark]
    split_ifs <;> exact ⟨_, rfl⟩
  all_goals simp [isObjVal] at hm

theorem applyMarks_str_ok {ms : List JValue} :
    ∀ (s : String), (∀ m ∈ ms, isObjVal m = true) →
      ∃ u, applyMarks (.str s) (.arr ms) = .ok (.str u) := by
  induction ms with
  | nil => intro s _; exact ⟨s, rfl⟩
  | cons m rest ih =>
      intro s h
      obtain ⟨u, hu⟩ := wrapMark_str_ok s m (h m (List.mem_cons_self m rest))
      obtain ⟨w, hw⟩ := ih u (fun m2 hm2 => h m2 (List.mem_cons_of_mem _ hm2))
      refine ⟨w, ?_⟩
      simp only [applyMarks] at hw ⊢
      rw [List.foldlM_cons, hu]
      simpa using hw

theorem jLookup_mem {kvs : List (String × JValue)} {k : String} {v : JValue}
    (h : jLookup kvs k = some v) : (k, v) ∈ kvs := by
  induction kvs with
  | nil => cases h
  | cons kv rest ih =>
      rcases kv with ⟨k2, v2⟩
      by_cases hk : (k2 == k) = true
      · simp only [jLookup, hk, if_true, Option.some.injEq] at h
        subst h
        have hkk : k2 = k := by simpa using hk
        subst hkk
        exact List.mem_cons_self _ _
      · simp only [jLookup, hk] at h
        simp only [Bool.false_eq_true, if_false] at h
        exact List.mem_cons_of_mem _ (ih h)

theorem attr_good {akvs : List (String × JValue)}
    (hgood : akvs.all goodAttrEntry = true) {k : String} {v : JValue}
    (h : jLookup akvs k = some v) : goodAttrEntry (k, v) = true :=
  List.all_eq_true.mp hgood _ (jLookup_mem h)

theorem attr_text_str {akvs : List (String × JValue)}
    (hgood : akvs.all goodAttrEntry = true) :
    ∃ s, (jLookup akvs "text").getD (.str "") = JValue.str s := by
  cases h : jLookup akvs "text" with
  | none => exact ⟨"", rfl⟩
  | some v =>
      have hg := attr_good hgood h
      simp only [goodAttrEntry] at hg
      cases v <;> simp_all

theorem attr_params_obj {akvs : List (String × JValue)}
    (hgood : akvs.all goodAttrEntry = true) :
    ∃ pkvs, (jLookup akvs "parameters").getD (.obj []) = JValue.obj pkvs := by
  cases h : jLookup akvs "parameters" with
  | none => exact ⟨[], rfl⟩
  | some v =>
      have hg := attr_good hgood h
      simp only [goodAttrEntry] at hg
      cases v <;> simp_all

theorem attr_not_container {akvs : List (String × JValue)}
    (hgood : akvs.all goodAttrEntry = true) (k : String)
    (hk1 : (k == "parameters") = false) (d : JValue)
    (hd : isContainerVal d = false) :
    isContainerVal ((jLookup akvs k).getD d) = false := by
  cases h : jLookup akvs k with
  | none => simpa
  | some v =>
      have hg := attr_good hgood h
      simp only [goodAttrEntry, hk1] at hg
      cases v <;> simp_all [isContainerVal]

theorem imLookup_ok (im : List (String × String)) {v : JValue}
    (h : isContainerVal v = false) : ∃ w, imLookup im v = .ok w := by
  cases v
  case arr => simp [isContainerVal] at h
  case obj => simp [isContainerVal] at h
  all_goals exact ⟨_, rfl⟩

theorem ridResolve_ok (rm : List (String × RidEntry)) {v : JValue}
    (h : isContainerVal v = false) : ∃ w, ridResolve rm v = .ok w := by
  cases v
  case arr => simp [isContainerVal] at h
  case obj => simp [isContainerVal] at h
  all_goals exact ⟨_, rfl⟩

theorem isOkStr_ite {c : Prop} [Decidable c] {a b : Except PyErr JValue}
    (ha : c → isOkStr a) (hb : ¬c → isOkStr b) : isOkStr (if c then a else b) := by
  by_cases h : c
  · rw [if_pos h]
    exact ha h
  · rw [if_neg h]
    exact hb h

set_option maxHeartbeats 1600000 in
theorem processNode_wf (im : List (String × String)) (rm : List (String × RidEntry)) :
    ∀ (fuel : Nat) (v : JValue), wellFormed fuel v = true →
      ∃ s, processNode im rm fuel v = .ok (.str s) := by
  intro fuel
  induction fuel with
  | zero => intro v h; simp [wellFormed] at h
  | succ fuel ih =>
      intro v h
      cases v
      case null => exact ⟨"", rfl⟩
      case bool b => exact ⟨"", rfl⟩
      case num n => exact ⟨"", rfl⟩
      case str s => exact ⟨"", rfl⟩
      case arr xs => exact ⟨"", rfl⟩
      case obj kvs =>
        unfold wellFormed at h
        dsimp only at h
        rw [Bool.and_eq_true, Bool.and_eq_true, Bool.and_eq_true] at h
        obtain ⟨⟨⟨hA, hB⟩, hC⟩, hD⟩ := h
        have hcontent : ∃ xs, (jLookup kvs "content").getD (.arr []) = .arr xs ∧
            ∀ x ∈ xs, wellFormed fuel x = true := by
          cases hc : jLookup kvs "content" with
          | none => exact ⟨[], rfl, by simp⟩
          | some c =>
              rw [hc] at hA
              cases c
              case arr xs =>
                dsimp only at hA
                exact ⟨xs, rfl, fun x hx => List.all_eq_true.mp hA x hx⟩
              all_goals simp at hA
        have hattrs : ∃ akvs, (jLookup kvs "attrs").getD (.obj []) = .obj akvs ∧
            akvs.all goodAttrEntry = true := by
          cases hc : jLookup kvs "attrs" with
          | none => exact ⟨[], rfl, rfl⟩
          | some c =>
              rw [hc] at hB
              cases c
              case obj akvs =>
                dsimp only at hB
                exact ⟨akvs, rfl, hB⟩
              all_goals simp at hB
        have hmarks : ∃ ms, (jLookup kvs "marks").getD (.arr []) = .arr ms ∧
            ∀ m ∈ ms, isObjVal m = true := by
          cases hc : jLookup kvs "marks" with
          | none => exact ⟨[], rfl, by simp⟩
          | some c =>
              rw [hc] at hC
              cases c
              case arr ms =>
                dsimp only at hC
                exact ⟨ms, rfl, fun m hm => List.all_eq_true.mp hC m hm⟩
              all_goals simp at hC
        have htext : ∃ ts, (jLookup kvs "text").getD (.str "") = JValue.str ts := by
          cases hc : jLookup kvs "text" with
          | none => exact ⟨"", rfl⟩
          | some c =>
              rw [hc] at hD
              cases c
              case str s2 => exact ⟨s2, rfl⟩
              all_goals simp at hD
        obtain ⟨xs, hxs, hwf⟩ := hcontent
        obtain ⟨akvs, hak, hgood⟩ := hattrs
        obtain ⟨ms, hms, hmobj⟩ := hmarks
        obtain ⟨ts, hts⟩ := htext
        have hch : ∀ x ∈ xs, ∃ s, processNode im rm fuel x = .ok (.str s) :=
          fun x hx => ih x (hwf x hx)
        obtain ⟨inner, hinner⟩ := renderChildren_arr_ok hch
        obtain ⟨uM, hMarksOk⟩ := applyMarks_str_ok ts hmobj
        obtain ⟨ts2, hts2⟩ := attr_text_str hgood
        obtain ⟨pkvs, hpk⟩ := attr_params_obj hgood
        have hsrc : isContainerVal ((jLookup akvs "src").getD (.str "")) = false :=
          attr_not_container hgood "src" (by decide) _ rfl
        obtain ⟨wsrc, hwsrc⟩ := imLookup_ok im hsrc
        have hid : isContainerVal ((jLookup akvs "id").getD (.str "")) = false :=
          attr_not_container hgood "id" (by decide) _ rfl
        obtain ⟨ro, hro⟩ := ridResolve_ok rm hid
        simp only [processNode]
        rw [hxs, hak, hms, hts]
        simp only [pyGet, exceptBind_ok, exceptPure_eq, exceptMap_ok, hinner,
          hpk, hts2, hwsrc, hro, Option.getD_some]
        show isOkStr _
        repeat' refine isOkStr_ite (fun _ => ?_) (fun _ => ?_)
        all_goals
          first
          | exact ⟨_, rfl⟩
          | exact ⟨uM, hMarksOk⟩
          | (cases ro <;> exact ⟨_, rfl⟩)
          | (unfold isOkStr; split <;> exact ⟨_, rfl⟩)

/-- C6 amended: the transducer is total and string-valued over every
tree whose present fields have the expected shapes (content a list of
such nodes, attrs a dict whose parameters entry is a dict, whose text
entry is a string and whose other entries are scalars, marks a list of
dicts, text a string); missing fields recover locally by defaults, in
particular a heading without a level renders with the default level 2.
On malformed sub-structures such as a numeric mark entry the transducer
raises (see the counterexample), so totality holds on this well-shaped
domain, not on all trees. -/
theorem C6_render_total_on_wellformed :
    (∀ (im : List (String × String)) (rm : List (String × RidEntry)) (fuel : Nat)
        (v : JValue), wellFormed fuel v = true →
      ∃ s, convert_prosemirror_to_html im rm fuel v = .ok (.str s)) ∧
    (∀ (im : List (String × String)) (rm : List (String × RidEntry)) (fuel : Nat)
        (nkvs akvs : List (String × JValue)),
      jLookup nkvs "type" = some (.str "heading") →
      jLookup nkvs "attrs" = some (.obj akvs) →
      jLookup akvs "level" = none →
      processNode im rm (fuel + 1) (.obj nkvs) =
        (renderChildren (processNode im rm fuel)
            ((jLookup nkvs "content").getD (.arr []))).map
          (fun inner => .str ("<h" ++ pyStr (.num 2) ++ ">" ++ inner ++
            "</h" ++ pyStr (.num 2) ++ ">"))) := by
  constructor
  · intro im rm fuel v h
    unfold convert_prosemirror_to_html
    split
    · exact ⟨"", rfl⟩
    · exact processNode_wf im rm fuel v h
  · intro im rm fuel nkvs akvs h1 h2 h3
    cases hrc : renderChildren (processNode im rm fuel)
        ((jLookup nkvs "content").getD (.arr [])) <;>
      simp [processNode, h1, h2, h3, tagEq, pyGet, hrc]

/-- Witness for C6 amended at a concrete well-shaped paragraph and a
concrete heading without a level attribute. -/
theorem C6_render_total_on_wellformed_witness :
    (wellFormed 3 (JValue.obj [("type", JValue.str "paragraph"),
        ("content", JValue.arr [JValue.obj [("type", JValue.str "text"),
          ("text", JValue.str "Hi")]])]) = true ∧
      ∃ s, convert_prosemirror_to_html [] [] 3
          (JValue.obj [("type", JValue.str "paragraph"),
            ("content", JValue.arr [JValue.obj [("type", JValue.str "text"),
              ("text", JValue.str "Hi")]])]) = .ok (.str s)) ∧
    (jLookup [("type", JValue.str "heading"), ("attrs", JValue.obj [])] "type" =
        some (JValue.str "heading") ∧
      processNode [] [] 1 (.obj [("type", .str "heading"), ("attrs", .obj [])]) =
        .ok (.str "<h2></h2>")) :=
  ⟨⟨rfl, C6_render_total_on_wellformed.1 [] [] 3 _ rfl⟩,
   ⟨rfl, C6_render_total_on_wellformed.2 [] [] 0 _ [] rfl rfl rfl⟩⟩

end Tennisfel
